import Mathlib

set_option autoImplicit false

/-!
Verification development for the chess game-review analysis pipeline of this
repository (`src/components/ChessBoardArea.tsx`, which inlines the analysis
library and the engine adapter, and `src/hooks/useStockfish.ts`).

Modelling conventions.

* JavaScript numbers are modelled as exact integers (`Int`/`Nat`) wherever the
  code manipulates protocol integers, plies, depths or material counts, and as
  real numbers (`Real`) where the code evaluates the logistic win-chance
  formula with `Math.exp`.  Since every centipawn/mate quantity reaching
  `Math.round` is an integer in the model, rounding is the identity and the
  returned loss is the integer `cpl` itself.
* The chess.js collaborator (move legality, game termination, board material)
  is an external capability per the specification; its answers enter the model
  as oracle fields of `ClassifyInput` (`afterGameOver`, `beforeMaterial`,
  `afterMaterial`) and as an explicit legal-move count parameter.
* The regular expressions of `parseInfoLine` search whitespace-separated UCI
  lines; they are modelled token-wise over space-separated fields (on such
  lines the word-boundary and whitespace anchors coincide with token
  boundaries).  String primitives with non-structural loops are re-implemented
  over the character list so that concrete witnesses evaluate in the kernel.
* The engine adapter (`StockfishEngine`) is a single-threaded object whose
  methods and message handler mutate one pending-request slot and fire promise
  callbacks; it is modelled as a state machine over `EngineState` whose
  transitions return the externally observable `EngineAction` trace (posted
  protocol lines, timer operations, promise resolutions/rejections).
-/

/-- Result of assessing one position; `Evaluation` from `src/lib/stockfish.ts`
(inlined in `ChessBoardArea.tsx`).  Optional TypeScript fields become
`Option`. -/
structure Evaluation where
  cp : Option Int := none
  mate : Option Int := none
  depth : Nat := 0
  nodes : Option Nat := none
  bestMove : Option String := none
  pv : Option String := none
deriving DecidableEq, Repr

/-- The `MoveClassification` union type from `src/lib/analysis.ts`: ten string
labels plus the `null` member. -/
inductive MoveClassification where
  | brilliant
  | great
  | best
  | excellent
  | good
  | inaccuracy
  | mistake
  | blunder
  | book
  | forced
  | null
deriving DecidableEq, Repr

/-- Side to move for a ply, the `turn: 'w' | 'b'` field of `ParsedMove`. -/
inductive PieceColor where
  | white
  | black
deriving DecidableEq, Repr

/-- Per-colour material count, the return shape of `materialByColor` (a sum of
`PIECE_VALUE` entries, hence a natural number). -/
structure Material where
  white : Nat
  black : Nat
deriving DecidableEq, Repr

/-- Input record of `classifyMove`.  The fields `san`, `lan`, `ply`, `turn`
come from the `ParsedMove` argument; `evalBefore`, `evalAfter`, `bestMove`,
`openingPlyLimit`, `secondBestEval`, `prevEvalBefore`, `isOnlyLegalMove` are
the remaining parameters.  `afterGameOver` is the oracle answer of
`new Chess(move.fenAfter).isGameOver()` (false also when the constructor
throws and the catch block ignores the error), and `beforeMaterial` /
`afterMaterial` are the oracle answers of `materialByColor(move.fenBefore)` /
`materialByColor(move.fenAfter)`. -/
structure ClassifyInput where
  san : String
  lan : String
  ply : Nat
  turn : PieceColor
  evalBefore : Evaluation
  evalAfter : Evaluation
  bestMove : String
  openingPlyLimit : Nat
  secondBestEval : Option Evaluation := none
  prevEvalBefore : Option Evaluation := none
  isOnlyLegalMove : Bool := false
  afterGameOver : Bool := false
  beforeMaterial : Material
  afterMaterial : Material

/-- Conversion of an evaluation to centipawns from the side-to-move
perspective, `evalToCpFromTurnPerspective` in `src/lib/analysis.ts`: a mate
distance `m` maps to `Math.sign(m) * (10000 - Math.max(1, Math.abs(m)) * 10)`,
otherwise the raw `cp ?? 0`. -/
def evalToCpFromTurnPerspective (evalData : Evaluation) : Int :=
  match evalData.mate with
  | some m => Int.sign m * (10000 - max 1 |m| * 10)
  | none => evalData.cp.getD 0

/-- Win-chance formula `winChance` from `src/lib/analysis.ts`:
`50 + 50 * (2 / (1 + e^(-0.00368208 * cp)) - 1)`. -/
noncomputable def winChance (cp : ℝ) : ℝ :=
  50 + 50 * (2 / (1 + Real.exp (-0.00368208 * cp)) - 1)

/-- The local `scoreBefore` of `classifyMove`: the before-evaluation expressed
from the mover's perspective. -/
def scoreBeforeOf (p : ClassifyInput) : Int :=
  evalToCpFromTurnPerspective p.evalBefore

/-- The local `scoreAfter` of `classifyMove`: the after-evaluation is from the
new side to move, so it is negated to the mover's perspective. -/
def scoreAfterOf (p : ClassifyInput) : Int :=
  -evalToCpFromTurnPerspective p.evalAfter

/-- The local `cpl` of `classifyMove`: `Math.max(0, scoreBefore - scoreAfter)`. -/
def centipawnLossOf (p : ClassifyInput) : Int :=
  max 0 (scoreBeforeOf p - scoreAfterOf p)

/-- The local `isBest` of `classifyMove`: `move.lan === bestMove`. -/
def isBestOf (p : ClassifyInput) : Bool :=
  p.lan == p.bestMove

/-- The local `wcLoss` of `classifyMove`: win-chance drop from the mover's
perspective. -/
noncomputable def wcLossOf (p : ClassifyInput) : ℝ :=
  winChance (scoreBeforeOf p : ℝ) - winChance (scoreAfterOf p : ℝ)

/-- The local `netSacrifice` of `classifyMove`: material the mover gave up
minus material the mover captured, from the `materialByColor` oracle
answers. -/
def netSacrificeOf (p : ClassifyInput) : Int :=
  let moverBefore : Int := match p.turn with
    | .white => p.beforeMaterial.white
    | .black => p.beforeMaterial.black
  let moverAfter : Int := match p.turn with
    | .white => p.afterMaterial.white
    | .black => p.afterMaterial.black
  let opponentBefore : Int := match p.turn with
    | .white => p.beforeMaterial.black
    | .black => p.beforeMaterial.white
  let opponentAfter : Int := match p.turn with
    | .white => p.afterMaterial.black
    | .black => p.afterMaterial.white
  (moverBefore - moverAfter) - (opponentBefore - opponentAfter)

/-- The threshold ladder of `classifyMove` (the `if (cpl > 250 || wcLoss > 30)`
cascade, including the already-lost dampeners), before the best/brilliant/great
overrides are applied. -/
noncomputable def thresholdClassification (cpl scoreBefore : Int) (wcLoss : ℝ)
    (isBest : Bool) : MoveClassification :=
  if cpl > 250 ∨ wcLoss > 30 then
    if scoreBefore < -500 then
      if cpl ≤ 100 then .good
      else if cpl ≤ 250 then .mistake
      else .blunder
    else .blunder
  else if cpl > 100 ∨ wcLoss > 20 then
    if scoreBefore < -400 ∧ cpl ≤ 150 then .inaccuracy else .mistake
  else if cpl > 30 ∨ wcLoss > 10 then .inaccuracy
  else if cpl > 10 then .good
  else if cpl > 0 then .excellent
  else if isBest then .best else .excellent

/-- The brilliant-override guard of `classifyMove`: best move, net sacrifice of
at least 2, near-zero loss, and a before/after score window. -/
def brilliantApplies (p : ClassifyInput) : Bool :=
  isBestOf p && decide (2 ≤ netSacrificeOf p) && decide (centipawnLossOf p ≤ 15) &&
    decide (scoreBeforeOf p < 600) && decide (-300 < scoreBeforeOf p) &&
    decide (-50 < scoreAfterOf p)

/-- The great-override guard of `classifyMove`: best move, loss at most 10, a
second-best evaluation present whose mover-perspective score is at least 150
centipawns worse than the played line, with the mover not already lost. -/
def greatApplies (p : ClassifyInput) : Bool :=
  isBestOf p && decide (centipawnLossOf p ≤ 10) &&
    (match p.secondBestEval with
     | none => false
     | some sb =>
       decide (150 ≤ -evalToCpFromTurnPerspective sb - scoreAfterOf p) &&
         decide (-200 < scoreBeforeOf p))

/-- Kernel-evaluable model of `String.endsWith` for a one-character suffix, as
in the source's `move.san.endsWith('#')`: the last character equals the given
one. -/
def strEndsWith1 (s : String) (c : Char) : Bool :=
  s.data.getLast? == some c

/-- Kernel-evaluable model of `String.startsWith`: the candidate characters are
a prefix of the line's characters. -/
def strStartsWith (s pre : String) : Bool :=
  pre.data.isPrefixOf s.data

/-- Character-level splitting on a separator, the model of splitting a line on
single spaces (JavaScript `split(' ')`, Lean `String.splitOn " "`): empty
fields between consecutive separators are kept. -/
def splitChars (sep : Char) : List Char → List (List Char)
  | [] => [[]]
  | c :: cs =>
    let rest := splitChars sep cs
    if c = sep then [] :: rest
    else
      match rest with
      | r :: rs => (c :: r) :: rs
      | [] => [[c]]

/-- Space-separated fields of a protocol line (empty fields included), the
model of `line.split(' ')`. -/
def spaceFields (line : String) : List String :=
  (splitChars ' ' line.data).map fun cs => String.mk cs

/-- Numeric value of a decimal digit character. -/
def digitVal? (c : Char) : Option Nat :=
  if '0' ≤ c ∧ c ≤ '9' then some (c.toNat - '0'.toNat) else none

/-- Kernel-evaluable all-digits parse of a token, the token-level model of a
digit-sequence capture. -/
def parseNatChars (cs : List Char) : Option Nat :=
  if cs = [] then none
  else
    cs.foldl (fun acc c =>
      match acc, digitVal? c with
      | some n, some d => some (n * 10 + d)
      | _, _ => none) (some 0)

/-- Kernel-evaluable signed-integer parse of a token, the token-level model of
an optionally-negated digit-sequence capture. -/
def parseIntChars : List Char → Option Int
  | [] => none
  | c :: cs =>
    if c = '-' then (parseNatChars cs).map fun n => -(n : Int)
    else (parseNatChars (c :: cs)).map fun n => (n : Int)

/-- Space-joined rendering of a token list, the model of the captured
principal-variation tail of an info line. -/
def joinTokens : List String → String
  | [] => ""
  | [t] => t
  | t :: ts => t ++ " " ++ joinTokens ts

/-- The decision procedure `classifyMove` of `src/lib/analysis.ts`: terminal
override, forced, book, threshold ladder, then the best / brilliant / great
overrides, returning the classification and the (integer, hence
round-invariant) centipawn loss. -/
noncomputable def classifyMove (p : ClassifyInput) : MoveClassification × Int :=
  if strEndsWith1 p.san '#' = true then (.best, 0)
  else if p.afterGameOver = true then (.best, 0)
  else if p.isOnlyLegalMove = true then (.forced, 0)
  else if p.ply ≤ p.openingPlyLimit ∧ centipawnLossOf p ≤ 25 then
    (.book, centipawnLossOf p)
  else
    let base := thresholdClassification (centipawnLossOf p) (scoreBeforeOf p)
      (wcLossOf p) (isBestOf p)
    let withBest := if isBestOf p = true ∧ centipawnLossOf p ≤ 10 then .best else base
    let withBrilliant := if brilliantApplies p = true then .brilliant else withBest
    let withGreat :=
      if withBrilliant ≠ MoveClassification.brilliant ∧ greatApplies p = true then
        .great
      else withBrilliant
    (withGreat, centipawnLossOf p)

/-- Forced-move detection of `analyzeGame` in `src/hooks/useStockfish.ts`:
`isOnlyLegalMove = g.moves().length <= 1`, fed by the chess.js legal-move-count
capability. -/
def onlyLegalMoveFlag (legalMoveCount : Nat) : Bool :=
  legalMoveCount ≤ 1

/-- Whitespace-separated tokens of a protocol line, the token-level view of the
regular-expression searches in `parseInfoLine`. -/
def lineTokens (line : String) : List String :=
  (spaceFields line).filter (fun t => t ≠ "")

/-- Scan for the first occurrence of `key` followed by a natural-number token,
the token-level reading of a search for `key` plus whitespace plus digits; on a
non-numeric successor the scan continues, as the regular expression would. -/
def findNatAfter : List String → String → Option Nat
  | [], _ => none
  | t :: rest, key =>
    match rest with
    | v :: _ =>
      if t = key then
        match parseNatChars v.data with
        | some n => some n
        | none => findNatAfter rest key
      else findNatAfter rest key
    | [] => none

/-- Scan for the first occurrence of the token pair `k1 k2` followed by a
signed-integer token, the token-level reading of the `score cp` / `score mate`
searches. -/
def findIntAfterPair : List String → String → String → Option Int
  | [], _, _ => none
  | t :: rest, k1, k2 =>
    match rest with
    | v1 :: v2 :: _ =>
      if t = k1 ∧ v1 = k2 then
        match parseIntChars v2.data with
        | some n => some n
        | none => findIntAfterPair rest k1 k2
      else findIntAfterPair rest k1 k2
    | _ => none

/-- Tokens following the first occurrence of `key`, the token-level reading of
the principal-variation capture that takes the remainder of the line. -/
def restAfterToken : List String → String → Option (List String)
  | [], _ => none
  | t :: rest, key => if t = key then some rest else restAfterToken rest key

/-- Character classes of the long-algebraic move pattern
`[a-h][1-8][a-h][1-8][qrbn]?`. -/
def isFileChar (c : Char) : Bool := 'a' ≤ c && c ≤ 'h'

/-- Rank digit of the long-algebraic move pattern. -/
def isRankChar (c : Char) : Bool := '1' ≤ c && c ≤ '8'

/-- Promotion piece letter of the long-algebraic move pattern. -/
def isPromoChar (c : Char) : Bool := c = 'q' || c = 'r' || c = 'b' || c = 'n'

/-- Full-string match against `^[a-h][1-8][a-h][1-8][qrbn]?$`, used to validate
the first principal-variation move. -/
def isLanMove (s : String) : Bool :=
  match s.toList with
  | [a, b, c, d] => isFileChar a && isRankChar b && isFileChar c && isRankChar d
  | [a, b, c, d, e] =>
    isFileChar a && isRankChar b && isFileChar c && isRankChar d && isPromoChar e
  | _ => false

/-- Return value of `StockfishEngine.parseInfoLine`: an evaluation plus the
ranked-line index (`multipv` value, defaulting to 1). -/
structure ParsedInfo where
  eval : Evaluation
  pvIndex : Nat
deriving DecidableEq, Repr

/-- Bound-marker test of `parseInfoLine`: the line mentions `upperbound` or
`lowerbound` as a word. -/
def hasBoundMarker (line : String) : Bool :=
  (lineTokens line).contains "upperbound" || (lineTokens line).contains "lowerbound"

/-- The `StockfishEngine.parseInfoLine` method: requires a search depth, drops
bound-only lines, extracts centipawn or mate score, node count, ranked-line
index and principal variation, and validates the first variation move. -/
def parseInfoLine (line : String) : Option ParsedInfo :=
  let tokens := lineTokens line
  match findNatAfter tokens "depth" with
  | none => none
  | some d =>
    if hasBoundMarker line then none
    else
      let cpVal := findIntAfterPair tokens "score" "cp"
      let mateVal := findIntAfterPair tokens "score" "mate"
      let nodesVal := findNatAfter tokens "nodes"
      let multipvVal := findNatAfter tokens "multipv"
      let pvRest := restAfterToken tokens "pv"
      let bestMoveVal :=
        match pvRest with
        | some (m :: _) => if isLanMove m then some m else none
        | _ => none
      let pvStr :=
        match pvRest with
        | some (m :: ms) => some (joinTokens (m :: ms))
        | _ => none
      some { eval := { depth := d, cp := cpVal, mate := mateVal, nodes := nodesVal,
                       bestMove := bestMoveVal, pv := pvStr },
             pvIndex := multipvVal.getD 1 }

/-- Failure taxonomy of the adapter, from the `Error` messages thrown or passed
to `reject` in `StockfishEngine`. -/
inductive EngineError where
  | unavailable
  | notReady
  | cancelled
  | timeout
  | terminated
deriving DecidableEq, Repr

/-- The `PendingAnalysis` bookkeeping of one outstanding request: the retained
per-ranked-line evaluations (the `results` map), the requested line count, and
an identifier standing for the caller's promise / timer handle. -/
structure Pending where
  results : Nat → Option Evaluation
  multiPv : Nat
  id : Nat

/-- Mutable state of a `StockfishEngine` instance: worker presence, the
readiness flag, and the single pending-request slot. -/
structure EngineState where
  hasWorker : Bool := true
  ready : Bool := false
  pending : Option Pending := none

/-- Externally observable effects of one adapter transition: posted protocol
lines, timer operations, and promise settlements keyed by request
identifier. -/
inductive EngineAction where
  | post (msg : String)
  | startTimer (id ms : Nat)
  | clearTimer (id : Nat)
  | resolveCaller (id : Nat) (evals : List Evaluation)
  | rejectCaller (id : Nat) (err : EngineError)

/-- Analysis options of `StockfishEngine.analyzePosition`. -/
structure AnalyzeOptions where
  depth : Option Nat := none
  moveTimeMs : Option Nat := none
  timeoutMs : Option Nat := none
  multiPv : Option Nat := none

/-- The `info`-line branch of `StockfishEngine.handleMessage`: a parsed line
replaces the retained evaluation for its ranked-line index only when no
evaluation is retained or the new depth is at least the retained depth. -/
def applyInfoLine (p : Pending) (line : String) : Pending :=
  match parseInfoLine line with
  | none => p
  | some parsed =>
    let pvIdx := parsed.pvIndex
    match p.results pvIdx with
    | none =>
      { p with results := fun j => if j = pvIdx then some parsed.eval else p.results j }
    | some existing =>
      if existing.depth ≤ parsed.eval.depth then
        { p with results := fun j => if j = pvIdx then some parsed.eval else p.results j }
      else p

/-- Assembly of the resolved evaluation list in the `bestmove` branch of
`handleMessage`: one evaluation per requested line index 1..multiPv, missing
indices defaulting to depth 0, line 1 adopting the terminal move as best move
when none was retained and the terminal move is a real move. -/
def assembleResults (p : Pending) (move : Option String) : List Evaluation :=
  (List.range p.multiPv).map fun k =>
    let i := k + 1
    let ev := (p.results i).getD { depth := 0 }
    if i = 1 then
      match move with
      | some m =>
        if m ≠ "" ∧ m ≠ "(none)" then
          { ev with bestMove := match ev.bestMove with
                                | some b => some b
                                | none => some m }
        else ev
      | none => ev
    else ev

/-- The `StockfishEngine.handleMessage` dispatcher: handshake acknowledgement,
readiness, progress (`info`) lines while a request is pending, and the terminal
`bestmove` line that settles the pending promise. -/
def handleMessage (st : EngineState) (line : String) : EngineState × List EngineAction :=
  if line = "uciok" then
    (st, [.post "setoption name Hash value 32", .post "isready"])
  else if line = "readyok" then
    ({ st with ready := true }, [])
  else if strStartsWith line "info " = true then
    match st.pending with
    | none => (st, [])
    | some p => ({ st with pending := some (applyInfoLine p line) }, [])
  else if strStartsWith line "bestmove" = true then
    match st.pending with
    | none => (st, [])
    | some p =>
      let move := (spaceFields line)[1]?
      ({ st with pending := none },
       [.clearTimer p.id, .resolveCaller p.id (assembleResults p move)])
  else (st, [])

/-- The synchronous body of `StockfishEngine.analyzePosition` once the
readiness promise has settled: worker and readiness checks, an unconditional
stop directive, cancellation of any pending request, then installation of the
new pending slot with its timer and the MultiPV / position / go commands. -/
def analyzePositionStart (st : EngineState) (fen : String) (options : AnalyzeOptions)
    (newId : Nat) : Except EngineError (EngineState × List EngineAction) :=
  if st.hasWorker = false then .error .unavailable
  else if st.ready = false then .error .notReady
  else
    let depth := options.depth.getD 18
    let timeoutMs := options.timeoutMs.getD 8000
    let multiPv := options.multiPv.getD 1
    let cancelActs : List EngineAction :=
      match st.pending with
      | some prev => [.clearTimer prev.id, .rejectCaller prev.id .cancelled]
      | none => []
    let goCmd :=
      match options.moveTimeMs with
      | some mt => "go movetime " ++ toString mt
      | none => "go depth " ++ toString depth
    .ok ({ st with
            pending := some { results := fun _ => none, multiPv := multiPv, id := newId } },
      .post "stop" :: cancelActs ++
        [.startTimer newId timeoutMs,
         .post ("setoption name MultiPV value " ++ toString multiPv),
         .post ("position fen " ++ fen),
         .post goCmd])

/-- The timeout callback of `analyzePosition`: when a request is still pending,
send a stop directive, assemble best-effort evaluations from the retained
lines, clear the pending slot, and resolve when the line-1 evaluation carries a
settled centipawn or mate score, otherwise reject with the timeout error. -/
def onTimeout (st : EngineState) : EngineState × List EngineAction :=
  match st.pending with
  | none => (st, [])
  | some p =>
    let results := (List.range p.multiPv).map fun k => (p.results (k + 1)).getD { depth := 0 }
    let st' := { st with pending := none }
    match results.head? with
    | some r0 =>
      if r0.cp.isSome || r0.mate.isSome then
        (st', [.post "stop", .resolveCaller p.id results])
      else (st', [.post "stop", .rejectCaller p.id .timeout])
    | none => (st', [.post "stop", .rejectCaller p.id .timeout])

/-- Closed form of the win-chance formula as a single logistic quotient. -/
lemma winChance_eq_div (x : ℝ) :
    winChance x = 100 / (1 + Real.exp (-0.00368208 * x)) := by
  have h : (0:ℝ) < 1 + Real.exp (-0.00368208 * x) := by positivity
  unfold winChance
  field_simp
  ring

/-- Lipschitz-style bound: the win-chance gained over a centipawn interval is
at most `100 * 0.00368208` per centipawn. -/
lemma winChance_sub_le (u v : ℝ) (huv : v ≤ u) :
    winChance u - winChance v ≤ 100 * (0.00368208 * (u - v)) := by
  have ha : (0:ℝ) < Real.exp (-0.00368208 * u) := Real.exp_pos _
  have hb : (0:ℝ) < Real.exp (-0.00368208 * v) := Real.exp_pos _
  have hd : (0:ℝ) ≤ 0.00368208 * (u - v) := by nlinarith
  have hab : Real.exp (-0.00368208 * u)
      = Real.exp (-0.00368208 * v) * Real.exp (-(0.00368208 * (u - v))) := by
    rw [← Real.exp_add]
    congr 1
    ring
  have hexp : 1 - 0.00368208 * (u - v) ≤ Real.exp (-(0.00368208 * (u - v))) := by
    have h1 := Real.add_one_le_exp (-(0.00368208 * (u - v)))
    linarith
  have key : Real.exp (-0.00368208 * v) - Real.exp (-0.00368208 * u)
      ≤ Real.exp (-0.00368208 * v) * (0.00368208 * (u - v)) := by
    rw [hab]
    nlinarith
  have h1a : (0:ℝ) < 1 + Real.exp (-0.00368208 * u) := by positivity
  have h1b : (0:ℝ) < 1 + Real.exp (-0.00368208 * v) := by positivity
  rw [winChance_eq_div, winChance_eq_div,
    div_sub_div _ _ (ne_of_gt h1a) (ne_of_gt h1b), div_le_iff₀ (by positivity)]
  nlinarith [key, ha.le, hb.le, hd, mul_nonneg hd ha.le, mul_nonneg hd hb.le,
    mul_nonneg (mul_nonneg hd ha.le) hb.le]

/-- Sharper bound on the nonnegative half-line: there the slope of the
win-chance curve is at most `50 * 0.00368208` per centipawn. -/
lemma winChance_sub_le_half (u v : ℝ) (h0 : 0 ≤ v) (huv : v ≤ u) :
    winChance u - winChance v ≤ 50 * (0.00368208 * (u - v)) := by
  have ha : (0:ℝ) < Real.exp (-0.00368208 * u) := Real.exp_pos _
  have hb : (0:ℝ) < Real.exp (-0.00368208 * v) := Real.exp_pos _
  have hd : (0:ℝ) ≤ 0.00368208 * (u - v) := by nlinarith
  have hb1 : Real.exp (-0.00368208 * v) ≤ 1 := by
    have hv : (-0.00368208 * v : ℝ) ≤ 0 := by nlinarith
    calc Real.exp (-0.00368208 * v) ≤ Real.exp 0 := Real.exp_le_exp.mpr hv
      _ = 1 := Real.exp_zero
  have hab : Real.exp (-0.00368208 * u)
      = Real.exp (-0.00368208 * v) * Real.exp (-(0.00368208 * (u - v))) := by
    rw [← Real.exp_add]
    congr 1
    ring
  have hexp : 1 - 0.00368208 * (u - v) ≤ Real.exp (-(0.00368208 * (u - v))) := by
    have h1 := Real.add_one_le_exp (-(0.00368208 * (u - v)))
    linarith
  have key : Real.exp (-0.00368208 * v) - Real.exp (-0.00368208 * u)
      ≤ Real.exp (-0.00368208 * v) * (0.00368208 * (u - v)) := by
    rw [hab]
    nlinarith
  have h1a : (0:ℝ) < 1 + Real.exp (-0.00368208 * u) := by positivity
  have h1b : (0:ℝ) < 1 + Real.exp (-0.00368208 * v) := by positivity
  rw [winChance_eq_div, winChance_eq_div,
    div_sub_div _ _ (ne_of_gt h1a) (ne_of_gt h1b), div_le_iff₀ (by positivity)]
  nlinarith [key, ha.le, hb.le, hd, hb1, mul_nonneg hd ha.le,
    mul_nonneg (mul_nonneg hd ha.le) hb.le,
    mul_nonneg hd (sub_nonneg.mpr hb1)]

/-- C8: the win-chance mapping sends a centipawn score of 0 to exactly 50, and
is symmetric about zero: `winChance cp + winChance (-cp) = 100` for every
centipawn value (exactly, in the real-number model of the floating-point
formula). -/
theorem c8_winChance_symmetric :
    winChance 0 = 50 ∧ ∀ cp : ℝ, winChance cp + winChance (-cp) = 100 := by
  constructor
  · rw [winChance_eq_div]
    norm_num
  · intro cp
    have hab : Real.exp (-(0.00368208 * cp)) * Real.exp (0.00368208 * cp) = 1 := by
      have harg : (-(0.00368208 * cp)) + 0.00368208 * cp = 0 := by ring
      rw [← Real.exp_add, harg, Real.exp_zero]
    have ha : (0:ℝ) < Real.exp (-0.00368208 * cp) := Real.exp_pos _
    have hb : (0:ℝ) < Real.exp (-0.00368208 * -cp) := Real.exp_pos _
    have h1a : (0:ℝ) < 1 + Real.exp (-0.00368208 * cp) := by positivity
    have h1b : (0:ℝ) < 1 + Real.exp (-0.00368208 * -cp) := by positivity
    rw [winChance_eq_div, winChance_eq_div]
    field_simp
    nlinarith [hab]

/-- C2: a move whose SAN records checkmate, or whose resulting position the
termination oracle reports as having no legal continuation, classifies "best"
with centipawn loss 0, regardless of every other input signal. -/
theorem c2_terminal_always_best (p : ClassifyInput)
    (h : strEndsWith1 p.san '#' = true ∨ p.afterGameOver = true) :
    classifyMove p = (MoveClassification.best, 0) := by
  unfold classifyMove
  rcases h with h | h
  · rw [if_pos h]
  · by_cases hm : strEndsWith1 p.san '#' = true
    · rw [if_pos hm]
    · rw [if_neg hm, if_pos h]

/-- Concrete input for the terminal override: a queen sacrifice delivering
mate, not the engine's preferred move, with the mover far behind on the
evaluations. -/
def c2Input : ClassifyInput :=
  { san := "Qh2#", lan := "h4h2", ply := 31, turn := .black
    evalBefore := { cp := some (-800), depth := 18 }
    evalAfter := { cp := some 300, depth := 18 }
    bestMove := "g8h8", openingPlyLimit := 10
    beforeMaterial := { white := 39, black := 30 }
    afterMaterial := { white := 39, black := 21 } }

/-- Witness for C2 at a concrete checkmate input. -/
theorem c2_terminal_always_best_witness :
    classifyMove c2Input = (MoveClassification.best, 0) :=
  c2_terminal_always_best c2Input (Or.inl (by decide))

/-- C3: when the pre-move position has at most one legal move (the hook's
`isOnlyLegalMove` flag, computed as legal-move count at most 1) and the move
does not end the game, the move classifies "forced" with loss 0, taking
precedence over the book and threshold logic (the preferred-move signal is
irrelevant). -/
theorem c3_forced_precedence (p : ClassifyInput) (legalMoveCount : Nat)
    (hcount : legalMoveCount ≤ 1)
    (hflag : p.isOnlyLegalMove = onlyLegalMoveFlag legalMoveCount)
    (hsan : strEndsWith1 p.san '#' = false) (hover : p.afterGameOver = false) :
    classifyMove p = (MoveClassification.forced, 0) := by
  have hforced : p.isOnlyLegalMove = true := by
    rw [hflag]
    unfold onlyLegalMoveFlag
    exact decide_eq_true hcount
  have h1 : ¬(strEndsWith1 p.san '#' = true) := by
    rw [hsan]
    exact Bool.false_ne_true
  have h2 : ¬(p.afterGameOver = true) := by
    rw [hover]
    exact Bool.false_ne_true
  unfold classifyMove
  rw [if_neg h1, if_neg h2, if_pos hforced]

/-- Concrete input for the forced override: the single legal reply to a check,
which is also the engine's preferred move, inside the opening horizon. -/
def c3Input : ClassifyInput :=
  { san := "Kg8", lan := "h8g8", ply := 6, turn := .black
    evalBefore := { cp := some (-250), depth := 18 }
    evalAfter := { cp := some 260, depth := 18 }
    bestMove := "h8g8", openingPlyLimit := 10
    isOnlyLegalMove := true
    beforeMaterial := { white := 39, black := 38 }
    afterMaterial := { white := 39, black := 38 } }

/-- Witness for C3 at a concrete one-legal-move input. -/
theorem c3_forced_precedence_witness :
    classifyMove c3Input = (MoveClassification.forced, 0) :=
  c3_forced_precedence c3Input 1 (by decide) (by decide) (by decide) (by decide)

/-- The threshold ladder never yields the null classification. -/
lemma thresholdClassification_ne_null (cpl scoreBefore : Int) (wcLoss : ℝ)
    (isBest : Bool) :
    thresholdClassification cpl scoreBefore wcLoss isBest ≠ MoveClassification.null := by
  unfold thresholdClassification
  split_ifs <;> decide

/-- C10: for every input, `classifyMove` returns one of the ten concrete
labels — never the null member of the classification type — and the returned
centipawn loss is nonnegative. -/
theorem c10_total_classification (p : ClassifyInput) :
    (classifyMove p).1 ≠ MoveClassification.null ∧ 0 ≤ (classifyMove p).2 := by
  have hcpl : (0:Int) ≤ centipawnLossOf p := le_max_left 0 _
  simp only [classifyMove]
  split_ifs <;>
    exact ⟨by first | exact thresholdClassification_ne_null _ _ _ _ | simp,
           by first | exact hcpl | simp⟩

/-- Concrete input exercising the totality statement: an ordinary middlegame
move losing 40 centipawns. -/
def c10Input : ClassifyInput :=
  { san := "Nf3", lan := "g1f3", ply := 15, turn := .white
    evalBefore := { cp := some 60, depth := 18 }
    evalAfter := { cp := some (-20), depth := 18 }
    bestMove := "d2d4", openingPlyLimit := 10
    beforeMaterial := { white := 39, black := 39 }
    afterMaterial := { white := 39, black := 39 } }

/-- Witness for C10 at a concrete input (an ordinary middlegame move). -/
theorem c10_total_classification_witness :
    (classifyMove c10Input).1 ≠ MoveClassification.null ∧ 0 ≤ (classifyMove c10Input).2 :=
  c10_total_classification c10Input

/-- C7 counterexample: the evaluation carrying mate value 2 normalizes to
9980, strictly below the claimed universal bound 9990, refuting
"for every such evaluation, the absolute normalized value is at least
9990". -/
theorem c7_mate_counterexample :
    ({ mate := some 2, depth := 18 } : Evaluation).mate = some 2 ∧
      evalToCpFromTurnPerspective { mate := some 2, depth := 18 } = 9980 ∧
      ¬(9990 ≤ |evalToCpFromTurnPerspective { mate := some 2, depth := 18 }|) := by
  decide

/-- C7 amended: an evaluation carrying a mate value `m` normalizes to
`sign(m) * (10000 - 10 * max(1, |m|))`; when `m` is nonzero and `|m| < 1000`,
the absolute normalized value is exactly `10000 - 10 * |m|`, hence at least
`9990 - 10 * (|m| - 1)` (which is 9990 only for `|m| = 1`), and its sign equals
`sign(m)`. -/
theorem c7_mate_normalization (e : Evaluation) (m : Int) (hm : e.mate = some m) :
    evalToCpFromTurnPerspective e = Int.sign m * (10000 - max 1 |m| * 10) ∧
      (m ≠ 0 → |m| < 1000 →
        9990 - 10 * (|m| - 1) ≤ |evalToCpFromTurnPerspective e| ∧
          Int.sign (evalToCpFromTurnPerspective e) = Int.sign m) := by
  have heq : evalToCpFromTurnPerspective e = Int.sign m * (10000 - max 1 |m| * 10) := by
    unfold evalToCpFromTurnPerspective
    rw [hm]
  refine ⟨heq, fun hm0 hlt => ?_⟩
  rw [heq]
  have h1 : (1:Int) ≤ |m| := Int.one_le_abs hm0
  have hmax : max 1 |m| = |m| := max_eq_right h1
  rw [hmax]
  have hs : Int.sign m = 1 ∨ Int.sign m = -1 := by
    rcases lt_trichotomy m 0 with h | h | h
    · exact Or.inr (Int.sign_eq_neg_one_iff_neg.mpr h)
    · exact absurd h hm0
    · exact Or.inl (Int.sign_eq_one_iff_pos.mpr h)
  have key : ∀ a : Int, 1 ≤ a → a < 1000 →
      9990 - 10 * (a - 1) ≤ |Int.sign m * (10000 - a * 10)| ∧
        Int.sign (Int.sign m * (10000 - a * 10)) = Int.sign m := by
    intro a ha1 ha2
    rcases hs with hsv | hsv <;> rw [hsv]
    · rw [one_mul, abs_of_pos (by omega)]
      exact ⟨by omega, Int.sign_eq_one_iff_pos.mpr (by omega)⟩
    · rw [neg_one_mul, abs_neg, abs_of_pos (by omega)]
      exact ⟨by omega, Int.sign_eq_neg_one_iff_neg.mpr (by omega)⟩
  exact key |m| h1 hlt

/-- Witness for the amended C7 at the mate-in-minus-one evaluation. -/
theorem c7_mate_normalization_witness :
    evalToCpFromTurnPerspective { mate := some (-1), depth := 12 }
        = Int.sign (-1) * (10000 - max 1 |(-1:Int)| * 10) ∧
      ((-1:Int) ≠ 0 → |(-1:Int)| < 1000 →
        9990 - 10 * (|(-1:Int)| - 1)
            ≤ |evalToCpFromTurnPerspective { mate := some (-1), depth := 12 }| ∧
          Int.sign (evalToCpFromTurnPerspective { mate := some (-1), depth := 12 })
            = Int.sign (-1)) :=
  c7_mate_normalization { mate := some (-1), depth := 12 } (-1) rfl

/-- C9: for a non-terminal, non-forced move past the opening horizon whose
mover-perspective score drop is exactly 10 centipawns, the classification is
"good" or better — in fact excellent, best, brilliant or great — never
inaccuracy, mistake or blunder, because a 10-centipawn drop yields a
win-chance loss of at most 100 · 0.00368208 · 10 < 10. -/
theorem c9_loss_ten_good_or_better (p : ClassifyInput)
    (hsan : strEndsWith1 p.san '#' = false) (hover : p.afterGameOver = false)
    (hforced : p.isOnlyLegalMove = false) (hply : p.openingPlyLimit < p.ply)
    (hloss : scoreBeforeOf p - scoreAfterOf p = 10) :
    (classifyMove p).1 = MoveClassification.excellent ∨
      (classifyMove p).1 = MoveClassification.best ∨
      (classifyMove p).1 = MoveClassification.brilliant ∨
      (classifyMove p).1 = MoveClassification.great := by
  have hcpl : centipawnLossOf p = 10 := by
    unfold centipawnLossOf
    rw [hloss]
    decide
  have hd : (scoreBeforeOf p : ℝ) - (scoreAfterOf p : ℝ) = 10 := by
    have hc : ((scoreBeforeOf p - scoreAfterOf p : Int) : ℝ) = ((10 : Int) : ℝ) := by
      rw [hloss]
    push_cast at hc
    linarith
  have hwc : wcLossOf p ≤ 10 := by
    have hle : (scoreAfterOf p : ℝ) ≤ (scoreBeforeOf p : ℝ) := by linarith
    have hb := winChance_sub_le (scoreBeforeOf p : ℝ) (scoreAfterOf p : ℝ) hle
    rw [hd] at hb
    unfold wcLossOf
    norm_num at hb
    linarith
  have hbase : thresholdClassification (centipawnLossOf p) (scoreBeforeOf p)
      (wcLossOf p) (isBestOf p) = MoveClassification.excellent := by
    unfold thresholdClassification
    rw [hcpl]
    have h1 : ¬((10 : Int) > 250 ∨ wcLossOf p > 30) := by
      push_neg
      exact ⟨by norm_num, by linarith⟩
    have h2 : ¬((10 : Int) > 100 ∨ wcLossOf p > 20) := by
      push_neg
      exact ⟨by norm_num, by linarith⟩
    have h3 : ¬((10 : Int) > 30 ∨ wcLossOf p > 10) := by
      push_neg
      exact ⟨by norm_num, by linarith⟩
    rw [if_neg h1, if_neg h2, if_neg h3, if_neg (by norm_num : ¬((10 : Int) > 10)),
      if_pos (by norm_num : (10 : Int) > 0)]
  have hbook : ¬(p.ply ≤ p.openingPlyLimit ∧ centipawnLossOf p ≤ 25) := by
    rintro ⟨h, _⟩
    omega
  simp only [classifyMove]
  rw [if_neg (by rw [hsan]; exact Bool.false_ne_true),
    if_neg (by rw [hover]; exact Bool.false_ne_true),
    if_neg (by rw [hforced]; exact Bool.false_ne_true),
    if_neg hbook]
  split_ifs <;> simp [hbase]

/-- Concrete input for C9: an ordinary middlegame move dropping the
mover-perspective score from 30 to 20 centipawns. -/
def c9Input : ClassifyInput :=
  { san := "Nf3", lan := "g1f3", ply := 12, turn := .white
    evalBefore := { cp := some 30, depth := 18 }
    evalAfter := { cp := some (-20), depth := 18 }
    bestMove := "d2d4", openingPlyLimit := 10
    beforeMaterial := { white := 39, black := 39 }
    afterMaterial := { white := 39, black := 39 } }

/-- Witness for C9 at the concrete ten-centipawn-loss input. -/
theorem c9_loss_ten_good_or_better_witness :
    (classifyMove c9Input).1 = MoveClassification.excellent ∨
      (classifyMove c9Input).1 = MoveClassification.best ∨
      (classifyMove c9Input).1 = MoveClassification.brilliant ∨
      (classifyMove c9Input).1 = MoveClassification.great :=
  c9_loss_ten_good_or_better c9Input (by decide) (by decide) (by decide)
    (by decide) (by decide)

/-- Concrete input matching the C1 scenario as written: the played move is the
engine's preferred move, the mover gives up a bishop for nothing (net
sacrifice 3), `scoreBeforeMover = 120` and `scoreAfterMover = 40`. -/
def c1Input : ClassifyInput :=
  { san := "Bxf7", lan := "c4f7", ply := 20, turn := .white
    evalBefore := { cp := some 120, depth := 18 }
    evalAfter := { cp := some (-40), depth := 18 }
    bestMove := "c4f7", openingPlyLimit := 10
    beforeMaterial := { white := 39, black := 39 }
    afterMaterial := { white := 36, black := 39 } }

/-- C1 counterexample: with `scoreBeforeMover = 120` and
`scoreAfterMover = 40` the centipawn loss is 80 (not 5, as the derived loss is
`scoreBeforeMover - scoreAfterMover`), which defeats the brilliant override's
`loss ≤ 15` guard, and the move classifies "inaccuracy". -/
theorem c1_brilliant_counterexample :
    isBestOf c1Input = true ∧ netSacrificeOf c1Input = 3 ∧
      scoreBeforeOf c1Input = 120 ∧ scoreAfterOf c1Input = 40 ∧
      strEndsWith1 c1Input.san '#' = false ∧ c1Input.afterGameOver = false ∧
      c1Input.isOnlyLegalMove = false ∧
      classifyMove c1Input = (MoveClassification.inaccuracy, 80) ∧
      (classifyMove c1Input).1 ≠ MoveClassification.brilliant := by
  have hsb : scoreBeforeOf c1Input = 120 := by decide
  have hsa : scoreAfterOf c1Input = 40 := by decide
  have hcpl : centipawnLossOf c1Input = 80 := by decide
  have hib : isBestOf c1Input = true := by decide
  have hwc : wcLossOf c1Input ≤ 20 := by
    have hb := winChance_sub_le_half ((120 : Int) : ℝ) ((40 : Int) : ℝ)
      (by norm_num) (by norm_num)
    unfold wcLossOf
    rw [hsb, hsa]
    norm_num at hb ⊢
    linarith
  have hbase : thresholdClassification 80 120 (wcLossOf c1Input) true
      = MoveClassification.inaccuracy := by
    unfold thresholdClassification
    have h1 : ¬((80 : Int) > 250 ∨ wcLossOf c1Input > 30) := by
      push_neg
      exact ⟨by norm_num, by linarith⟩
    have h2 : ¬((80 : Int) > 100 ∨ wcLossOf c1Input > 20) := by
      push_neg
      exact ⟨by norm_num, by linarith⟩
    rw [if_neg h1, if_neg h2, if_pos (Or.inl (by norm_num : (80 : Int) > 30))]
  have hmain : classifyMove c1Input = (MoveClassification.inaccuracy, 80) := by
    simp only [classifyMove]
    rw [if_neg (by decide : ¬(strEndsWith1 c1Input.san '#' = true)),
      if_neg (by decide : ¬(c1Input.afterGameOver = true)),
      if_neg (by decide : ¬(c1Input.isOnlyLegalMove = true)),
      if_neg (by decide : ¬(c1Input.ply ≤ c1Input.openingPlyLimit ∧
        centipawnLossOf c1Input ≤ 25)),
      if_neg (by decide : ¬(isBestOf c1Input = true ∧ centipawnLossOf c1Input ≤ 10)),
      if_neg (by decide : ¬(brilliantApplies c1Input = true))]
    rw [if_neg (fun h => absurd h.2 (by decide : ¬(greatApplies c1Input = true)))]
    rw [hcpl, hsb, hib, hbase]
  exact ⟨hib, by decide, hsb, hsa, by decide, by decide, by decide, hmain,
    by rw [hmain]; decide⟩

/-- C1 amended: the brilliant scenario holds once the after score is consistent
with the stated loss of 5: for the engine's preferred move with net sacrifice
at least 2, `scoreBeforeMover = 120`, `scoreAfterMover = 115`, past the opening
horizon and not terminal or forced, the move classifies "brilliant" with
loss 5. -/
theorem c1_brilliant_amended (p : ClassifyInput)
    (hsan : strEndsWith1 p.san '#' = false) (hover : p.afterGameOver = false)
    (hforced : p.isOnlyLegalMove = false) (hply : p.openingPlyLimit < p.ply)
    (hbest : isBestOf p = true) (hsac : 2 ≤ netSacrificeOf p)
    (hsb : scoreBeforeOf p = 120) (hsa : scoreAfterOf p = 115) :
    classifyMove p = (MoveClassification.brilliant, 5) := by
  have hcpl : centipawnLossOf p = 5 := by
    unfold centipawnLossOf
    rw [hsb, hsa]
    decide
  have hbr : brilliantApplies p = true := by
    unfold brilliantApplies
    rw [hbest, hsb, hsa, hcpl]
    simp [hsac]
  have hbook : ¬(p.ply ≤ p.openingPlyLimit ∧ centipawnLossOf p ≤ 25) := by
    rintro ⟨h, _⟩
    omega
  simp only [classifyMove]
  rw [if_neg (by rw [hsan]; exact Bool.false_ne_true),
    if_neg (by rw [hover]; exact Bool.false_ne_true),
    if_neg (by rw [hforced]; exact Bool.false_ne_true),
    if_neg hbook, if_pos hbr]
  rw [if_neg (fun h => h.1 rfl), hcpl]

/-- Concrete input for the amended C1: the bishop sacrifice with
`scoreBeforeMover = 120` and `scoreAfterMover = 115` (loss 5). -/
def c1AmendedInput : ClassifyInput :=
  { san := "Bxf7", lan := "c4f7", ply := 20, turn := .white
    evalBefore := { cp := some 120, depth := 18 }
    evalAfter := { cp := some (-115), depth := 18 }
    bestMove := "c4f7", openingPlyLimit := 10
    beforeMaterial := { white := 39, black := 39 }
    afterMaterial := { white := 36, black := 39 } }

/-- Witness for the amended C1 at the concrete bishop-sacrifice input. -/
theorem c1_brilliant_amended_witness :
    classifyMove c1AmendedInput = (MoveClassification.brilliant, 5) :=
  c1_brilliant_amended c1AmendedInput (by decide) (by decide) (by decide)
    (by decide) (by decide) (by decide) (by decide) (by decide)

/-- Bound-only info lines are never parsed into an evaluation. -/
lemma parseInfoLine_none_of_bound (line : String) (h : hasBoundMarker line = true) :
    parseInfoLine line = none := by
  cases hfind : findNatAfter (lineTokens line) "depth" <;>
    simp [parseInfoLine, hfind, h]

/-- C4: during a single pending request, a retained evaluation for a
ranked-line index is only ever replaced by a parsed info line addressed to that
index whose depth is at least the retained depth (otherwise the retained
evaluation survives unchanged), and a line carrying an upperbound/lowerbound
marker never changes the retained state at all. -/
theorem c4_monotonic_depth_retention (p : Pending) (line : String) (idx : Nat)
    (old : Evaluation) (hold : p.results idx = some old) :
    ((applyInfoLine p line).results idx = some old ∨
      ∃ parsed, parseInfoLine line = some parsed ∧ parsed.pvIndex = idx ∧
        old.depth ≤ parsed.eval.depth ∧
        (applyInfoLine p line).results idx = some parsed.eval) ∧
    (hasBoundMarker line = true → applyInfoLine p line = p) := by
  constructor
  · cases hparse : parseInfoLine line with
    | none =>
      left
      simp [applyInfoLine, hparse, hold]
    | some parsed =>
      by_cases hidx : idx = parsed.pvIndex
      · subst hidx
        cases hres : p.results parsed.pvIndex with
        | none =>
          rw [hold] at hres
          exact absurd hres (by simp)
        | some ex =>
          have hex : ex = old := by
            rw [hold] at hres
            exact (Option.some_inj.mp hres).symm
          subst hex
          by_cases hd : ex.depth ≤ parsed.eval.depth
          · right
            refine ⟨parsed, rfl, rfl, hd, ?_⟩
            simp [applyInfoLine, hparse, hres, hd]
          · left
            simp [applyInfoLine, hparse, hres, hd, hold]
      · left
        cases hres : p.results parsed.pvIndex with
        | none =>
          simp [applyInfoLine, hparse, hres, hold, hidx]
        | some ex =>
          by_cases hd : ex.depth ≤ parsed.eval.depth
          · simp [applyInfoLine, hparse, hres, hd, hold, hidx]
          · simp [applyInfoLine, hparse, hres, hd, hold]
  · intro hb
    simp [applyInfoLine, parseInfoLine_none_of_bound line hb]

/-- Concrete pending request for the C4 witness: line 1 retains a depth-10
evaluation. -/
def c4Pending : Pending :=
  { results := fun j => if j = 1 then some { depth := 10, cp := some 25 } else none
    multiPv := 1
    id := 7 }

/-- Concrete progress line for the C4 witness: depth 5, below the retained
depth 10. -/
def c4Line : String := "info depth 5 seldepth 7 score cp 40 nodes 1200 pv e2e4 e7e5"

/-- Witness for C4: the lower-depth progress line leaves the retained line-1
evaluation unchanged. -/
theorem c4_monotonic_depth_retention_witness :
    ((applyInfoLine c4Pending c4Line).results 1
        = some { depth := 10, cp := some 25 } ∨
      ∃ parsed, parseInfoLine c4Line = some parsed ∧ parsed.pvIndex = 1 ∧
        ({ depth := 10, cp := some 25 } : Evaluation).depth ≤ parsed.eval.depth ∧
        (applyInfoLine c4Pending c4Line).results 1 = some parsed.eval) ∧
    (hasBoundMarker c4Line = true → applyInfoLine c4Pending c4Line = c4Pending) :=
  c4_monotonic_depth_retention c4Pending c4Line 1 { depth := 10, cp := some 25 }
    (by decide)

/-- The fresh pending slot installed by `analyzePosition` for a new request:
empty retained results, the requested line count, and the new identifier. -/
def freshPending (multiPv newId : Nat) : Pending :=
  { results := fun _ => none, multiPv := multiPv, id := newId }

/-- C5: issuing a new request while one is pending first posts the stop
directive, then clears the old timer and rejects the pending caller with the
cancellation error, and only then installs the fresh pending slot, starts its
timer and posts the MultiPV / position / go commands; the new request is then
live, and a subsequent terminal line settles it by resolving the new caller. -/
theorem c5_new_request_cancels_pending (st : EngineState) (p : Pending)
    (fen : String) (options : AnalyzeOptions) (newId : Nat)
    (hw : st.hasWorker = true) (hr : st.ready = true) (hp : st.pending = some p) :
    analyzePositionStart st fen options newId =
      .ok ({ st with pending := some (freshPending (options.multiPv.getD 1) newId) },
        [.post "stop", .clearTimer p.id, .rejectCaller p.id .cancelled,
         .startTimer newId (options.timeoutMs.getD 8000),
         .post ("setoption name MultiPV value " ++ toString (options.multiPv.getD 1)),
         .post ("position fen " ++ fen),
         .post (match options.moveTimeMs with
                | some mt => "go movetime " ++ toString mt
                | none => "go depth " ++ toString (options.depth.getD 18))]) ∧
    handleMessage
        { st with pending := some (freshPending (options.multiPv.getD 1) newId) }
        "bestmove e2e4" =
      ({ st with pending := none },
       [.clearTimer newId,
        .resolveCaller newId
          (assembleResults (freshPending (options.multiPv.getD 1) newId)
            (some "e2e4"))]) := by
  constructor
  · unfold analyzePositionStart
    rw [if_neg (by rw [hw]; exact (by decide : ¬(true = false))),
      if_neg (by rw [hr]; exact (by decide : ¬(true = false))), hp]
    rfl
  · unfold handleMessage
    rw [if_neg (by decide : ¬("bestmove e2e4" = "uciok")),
      if_neg (by decide : ¬("bestmove e2e4" = "readyok")),
      if_neg (by decide : ¬(strStartsWith "bestmove e2e4" "info " = true)),
      if_pos (by decide : strStartsWith "bestmove e2e4" "bestmove" = true)]
    rfl

/-- Concrete pre-existing pending request for the C5 witness. -/
def c5OldPending : Pending :=
  { results := fun _ => none
    multiPv := 1
    id := 4 }

/-- Concrete adapter state for the C5 witness: ready with a pending request. -/
def c5State : EngineState :=
  { hasWorker := true
    ready := true
    pending := some c5OldPending }

/-- Concrete options for the C5 witness (a depth-18 single-line request). -/
def c5Options : AnalyzeOptions :=
  { depth := some 18
    timeoutMs := some 8000
    multiPv := some 1 }

/-- Witness for C5 at a concrete ready-with-pending state. -/
theorem c5_new_request_cancels_pending_witness :
    analyzePositionStart c5State "4k3/8/8/8/8/8/8/4K3 w - - 0 1" c5Options 5 =
      .ok ({ c5State with pending := some (freshPending (c5Options.multiPv.getD 1) 5) },
        [.post "stop", .clearTimer c5OldPending.id,
         .rejectCaller c5OldPending.id .cancelled,
         .startTimer 5 (c5Options.timeoutMs.getD 8000),
         .post ("setoption name MultiPV value "
           ++ toString (c5Options.multiPv.getD 1)),
         .post ("position fen " ++ "4k3/8/8/8/8/8/8/4K3 w - - 0 1"),
         .post (match c5Options.moveTimeMs with
                | some mt => "go movetime " ++ toString mt
                | none => "go depth " ++ toString (c5Options.depth.getD 18))]) ∧
    handleMessage
        { c5State with pending := some (freshPending (c5Options.multiPv.getD 1) 5) }
        "bestmove e2e4" =
      ({ c5State with pending := none },
       [.clearTimer 5,
        .resolveCaller 5
          (assembleResults (freshPending (c5Options.multiPv.getD 1) 5)
            (some "e2e4"))]) :=
  c5_new_request_cancels_pending c5State c5OldPending
    "4k3/8/8/8/8/8/8/4K3 w - - 0 1" c5Options 5 rfl rfl rfl

/-- C6: when the per-request timeout fires with a request still pending, the
adapter posts a stop directive, clears the pending slot, assembles one
evaluation per requested line (missing indices defaulting to depth 0 with no
score), and resolves the caller exactly when the line-1 evaluation carries a
settled centipawn or mate score, rejecting with the timeout error otherwise. -/
theorem c6_timeout_settlement (st : EngineState) (p : Pending)
    (hp : st.pending = some p) (hm : 1 ≤ p.multiPv) :
    onTimeout st =
      ({ st with pending := none },
       if (((p.results 1).getD { depth := 0 }).cp.isSome
            || ((p.results 1).getD { depth := 0 }).mate.isSome) = true then
         [.post "stop", .resolveCaller p.id
            ((List.range p.multiPv).map fun k => (p.results (k + 1)).getD { depth := 0 })]
       else [.post "stop", .rejectCaller p.id .timeout]) := by
  obtain ⟨n, hn⟩ : ∃ n, p.multiPv = n + 1 := ⟨p.multiPv - 1, by omega⟩
  simp only [onTimeout, hp]
  rw [hn, List.range_succ_eq_map]
  simp only [List.map_cons, List.head?_cons, Nat.zero_add]
  split_ifs <;> rfl

/-- Concrete pending request for the C6 witness: line 1 retains a settled
centipawn score at depth 9. -/
def c6Pending : Pending :=
  { results := fun j => if j = 1 then some { depth := 9, cp := some 33 } else none
    multiPv := 2
    id := 3 }

/-- Concrete adapter state for the C6 witness. -/
def c6State : EngineState :=
  { hasWorker := true
    ready := true
    pending := some c6Pending }

/-- Witness for C6 at a concrete timed-out state with a settled line-1
score. -/
theorem c6_timeout_settlement_witness :
    onTimeout c6State =
      ({ c6State with pending := none },
       if (((c6Pending.results 1).getD { depth := 0 }).cp.isSome
            || ((c6Pending.results 1).getD { depth := 0 }).mate.isSome) = true then
         [.post "stop", .resolveCaller c6Pending.id
            ((List.range c6Pending.multiPv).map fun k =>
              (c6Pending.results (k + 1)).getD { depth := 0 })]
       else [.post "stop", .rejectCaller c6Pending.id .timeout]) :=
  c6_timeout_settlement c6State c6Pending rfl (by decide)
